import Mathlib

/-!
Verification of the stivale boot-protocol crate: a shallow embedding of the
tag-chain walker, string decoders, header builder, typed tag views and the
sequence adapters, together with proofs of the documented properties.

Machine integers (u64, u16, usize on the supported 64-bit target) are
modelled as Nat, with an explicit `% 2 ^ 64` at the points where the code
performs wrapping machine arithmetic.
-/

namespace Stivale

/-- Tag header every concrete tag begins with: src/v2/tag.rs `StivaleTagHeader`
(and the equivalent private `EmptyStivaleTag` of src/lib.rs). -/
structure StivaleTagHeader where
  identifier : Nat
  next : Nat
deriving DecidableEq

/-- Boot memory, as seen by the chain walker: every non-null address can be
read as a tag header. Reading address 0 never happens (the loop checks for
null first). -/
abbrev Mem := Nat → StivaleTagHeader

/-- The lookup loop of `StivaleStructure::get_tag` (src/lib.rs) and
`StivaleStruct::get_tag` (src/v2/mod.rs): while the current pointer is
non-null, return it if its identifier matches, else follow `next`.
`fuel` bounds the number of loop iterations; on a finite null-terminated
chain any `fuel` at least the chain length gives the exact loop result. -/
def getTagLoop (mem : Mem) (identifier : Nat) : Nat → Nat → Option Nat
  | 0, _ => none
  | fuel + 1, ptr =>
    if ptr = 0 then none
    else if (mem ptr).identifier = identifier then some ptr
    else getTagLoop mem identifier fuel (mem ptr).next

/-- Number of records the lookup loop examines (reads the header of) before
stopping, mirroring `getTagLoop` step for step. -/
def getTagExamined (mem : Mem) (identifier : Nat) : Nat → Nat → Nat
  | 0, _ => 0
  | fuel + 1, ptr =>
    if ptr = 0 then 0
    else if (mem ptr).identifier = identifier then 1
    else getTagExamined mem identifier fuel (mem ptr).next + 1

/-- Predicate `IsChain mem start addrs`: walking `next` pointers from `start` visits
exactly the non-null addresses `addrs` and ends at the null terminator. -/
inductive IsChain (mem : Mem) : Nat → List Nat → Prop
  | nil : IsChain mem 0 []
  | cons {a : Nat} {rest : List Nat} (ha : a ≠ 0)
      (h : IsChain mem (mem a).next rest) : IsChain mem a (a :: rest)

/-- Example memory for concrete chain lookups: a two-record chain at
addresses 16 and 32 with identifiers 100 and 200. -/
def exChainMem : Mem := fun addr =>
  if addr = 16 then ⟨100, 32⟩
  else if addr = 32 then ⟨200, 0⟩
  else ⟨0, 0⟩

/-- The scanning loop shared by both string decoders
(`while strlen < data.len() && data[strlen] != 0 { strlen += 1 }`):
starting from index `i`, returns the index of the first NUL byte at or
after `i`, or the buffer length if there is none. -/
def strScan (data : List Nat) (i : Nat) : Nat :=
  if h : i < data.length then
    if data.get ⟨i, h⟩ ≠ 0 then strScan data (i + 1) else i
  else i
termination_by data.length - i
decreasing_by omega

/-- Decoder `string_from_slice` of src/utils.rs (used by the v2 module): decode a
byte buffer into the prefix that stops at the first NUL byte. Returns the
bytes of the string view (plain, never optional). -/
def string_from_slice (slice : List Nat) : List Nat :=
  slice.take (strScan slice 0)

/-- Decoder `string_from_u8` of src/lib.rs: if the first byte is NUL return none,
else the prefix up to the first NUL. Indexing `data[0]` panics on an empty
slice; callers only ever pass 64- or 128-byte buffers, so the empty case is
unreachable and modelled as none. -/
def string_from_u8 (data : List Nat) : Option (List Nat) :=
  match data with
  | [] => none
  | d :: _ => if d = 0 then none else some (data.take (strScan data 0))

/-- Root structure of the v2 module (src/v2/mod.rs `StivaleStruct`): two
64-byte ASCII buffers and the address of the first tag. Byte-buffer fields
carry a `_bytes` suffix because the decoding methods reuse the source
field names. -/
structure StivaleStruct where
  bootloader_brand_bytes : List Nat
  bootloader_version_bytes : List Nat
  tags : Nat

/-- v2 `StivaleStruct::bootloader_brand`: plain string view of the brand
buffer. -/
def StivaleStruct.bootloader_brand (s : StivaleStruct) : List Nat :=
  string_from_slice s.bootloader_brand_bytes

/-- v2 `StivaleStruct::bootloader_version`: plain string view of the
version buffer. -/
def StivaleStruct.bootloader_version (s : StivaleStruct) : List Nat :=
  string_from_slice s.bootloader_version_bytes

/-- v2 `StivaleStruct::get_tag`: run the lookup loop from the root first-tag
address. -/
def StivaleStruct.get_tag (s : StivaleStruct) (mem : Mem)
    (identifier fuel : Nat) : Option Nat :=
  getTagLoop mem identifier fuel s.tags

end Stivale

namespace Stivale.Legacy

/-- Root structure of the legacy module (src/lib.rs `StivaleStructureInner`,
read through the `StivaleStructure` handle). -/
structure StivaleStructure where
  bootloader_brand_bytes : List Nat
  bootloader_version_bytes : List Nat
  tags : Nat

/-- Legacy `StivaleStructure::bootloader_brand`: optional string view,
none when the bootloader did not supply the field. -/
def StivaleStructure.bootloader_brand (s : StivaleStructure) :
    Option (List Nat) :=
  string_from_u8 s.bootloader_brand_bytes

/-- Legacy `StivaleStructure::bootloader_version`: optional string view. -/
def StivaleStructure.bootloader_version (s : StivaleStructure) :
    Option (List Nat) :=
  string_from_u8 s.bootloader_version_bytes

/-- Legacy `StivaleStructure::get_tag`: the same lookup loop. -/
def StivaleStructure.get_tag (s : StivaleStructure) (mem : Mem)
    (identifier fuel : Nat) : Option Nat :=
  getTagLoop mem identifier fuel s.tags

end Stivale.Legacy

namespace Stivale

/-- A 64-byte buffer of NUL bytes. -/
def zeroBuf64 : List Nat := List.replicate 64 0

/-- v2 `StivaleStruct::command_line`. -/
def StivaleStruct.command_line (s : StivaleStruct) (mem : Mem) (fuel : Nat) :
    Option Nat := s.get_tag mem 0xe5e76a1b4597a781 fuel

/-- v2 `StivaleStruct::memory_map`. -/
def StivaleStruct.memory_map (s : StivaleStruct) (mem : Mem) (fuel : Nat) :
    Option Nat := s.get_tag mem 0x2187f79e8612de07 fuel

/-- v2 `StivaleStruct::framebuffer`. -/
def StivaleStruct.framebuffer (s : StivaleStruct) (mem : Mem) (fuel : Nat) :
    Option Nat := s.get_tag mem 0x506461d2950408fa fuel

/-- v2 `StivaleStruct::edid_info`. -/
def StivaleStruct.edid_info (s : StivaleStruct) (mem : Mem) (fuel : Nat) :
    Option Nat := s.get_tag mem 0x968609d7af96b845 fuel

/-- v2 `StivaleStruct::mtrr` (deprecated legacy response tag). -/
def StivaleStruct.mtrr (s : StivaleStruct) (mem : Mem) (fuel : Nat) :
    Option Nat := s.get_tag mem 0x6bc1a78ebe871172 fuel

/-- v2 `StivaleStruct::terminal`. -/
def StivaleStruct.terminal (s : StivaleStruct) (mem : Mem) (fuel : Nat) :
    Option Nat := s.get_tag mem 0xc2b3f4c3233b0974 fuel

/-- v2 `StivaleStruct::modules`. -/
def StivaleStruct.modules (s : StivaleStruct) (mem : Mem) (fuel : Nat) :
    Option Nat := s.get_tag mem 0x4b6fe466aade04ce fuel

/-- v2 `StivaleStruct::rsdp`. -/
def StivaleStruct.rsdp (s : StivaleStruct) (mem : Mem) (fuel : Nat) :
    Option Nat := s.get_tag mem 0x9e1786930a375e78 fuel

/-- v2 `StivaleStruct::smbios`. -/
def StivaleStruct.smbios (s : StivaleStruct) (mem : Mem) (fuel : Nat) :
    Option Nat := s.get_tag mem 0x274bd246c62bf7d1 fuel

/-- v2 `StivaleStruct::epoch`. -/
def StivaleStruct.epoch (s : StivaleStruct) (mem : Mem) (fuel : Nat) :
    Option Nat := s.get_tag mem 0x566a7bed888e1407 fuel

/-- v2 `StivaleStruct::frimware` (firmware; spelling as in the source). -/
def StivaleStruct.frimware (s : StivaleStruct) (mem : Mem) (fuel : Nat) :
    Option Nat := s.get_tag mem 0x359d837855e3858c fuel

/-- v2 `StivaleStruct::efi_system_table`. -/
def StivaleStruct.efi_system_table (s : StivaleStruct) (mem : Mem)
    (fuel : Nat) : Option Nat := s.get_tag mem 0x4bc5ec15845b558e fuel

/-- v2 `StivaleStruct::kernel_file`. -/
def StivaleStruct.kernel_file (s : StivaleStruct) (mem : Mem) (fuel : Nat) :
    Option Nat := s.get_tag mem 0xe599d90c2975584a fuel

/-- v2 `StivaleStruct::kernel_slide`. -/
def StivaleStruct.kernel_slide (s : StivaleStruct) (mem : Mem) (fuel : Nat) :
    Option Nat := s.get_tag mem 0xee80847d01506c57 fuel

/-- v2 `StivaleStruct::smp`. -/
def StivaleStruct.smp (s : StivaleStruct) (mem : Mem) (fuel : Nat) :
    Option Nat := s.get_tag mem 0x34d1d96339647025 fuel

/-- v2 `StivaleStruct::pxe_info`. -/
def StivaleStruct.pxe_info (s : StivaleStruct) (mem : Mem) (fuel : Nat) :
    Option Nat := s.get_tag mem 0x29d1e96239247032 fuel

/-- v2 `StivaleStruct::uart`. -/
def StivaleStruct.uart (s : StivaleStruct) (mem : Mem) (fuel : Nat) :
    Option Nat := s.get_tag mem 0xb813f9b8dbc78797 fuel

/-- v2 `StivaleStruct::dev_tree`. -/
def StivaleStruct.dev_tree (s : StivaleStruct) (mem : Mem) (fuel : Nat) :
    Option Nat := s.get_tag mem 0xabb29bd49a2833fa fuel

/-- v2 `StivaleStruct::vmap`. -/
def StivaleStruct.vmap (s : StivaleStruct) (mem : Mem) (fuel : Nat) :
    Option Nat := s.get_tag mem 0xb0ed257db18cb58f fuel

/-- v2 header feature-request tag (src/v2/header.rs, `make_header_tag!`):
framebuffer request. `new()` stores the protocol identifier, a null next
pointer and zeroed fields. -/
structure StivaleFramebufferHeaderTag where
  identifier : Nat
  next : Nat
  framebuffer_width : Nat
  framebuffer_height : Nat
  framebuffer_bpp : Nat
  _padding : Nat

def StivaleFramebufferHeaderTag.new : StivaleFramebufferHeaderTag :=
  ⟨0x3ecc1bc43d0f7971, 0, 0, 0, 0, 0⟩

/-- v2 header terminal-request tag. -/
structure StivaleTerminalHeaderTag where
  identifier : Nat
  next : Nat
  flags : Nat

def StivaleTerminalHeaderTag.new : StivaleTerminalHeaderTag :=
  ⟨0xa85d499b1823be72, 0, 0⟩

/-- SMP header flag constants (bitflags; values as written in the source). -/
def StivaleSmpHeaderTagFlags.XAPIC : Nat := 0

def StivaleSmpHeaderTagFlags.X2APIC : Nat := 1

/-- v2 header SMP-request tag; `new()` defaults the flags to XAPIC. -/
structure StivaleSmpHeaderTag where
  identifier : Nat
  next : Nat
  flags : Nat

def StivaleSmpHeaderTag.new : StivaleSmpHeaderTag :=
  ⟨0x1ab015085f3273df, 0, StivaleSmpHeaderTagFlags.XAPIC⟩

/-- v2 header legacy MTRR write-combining request tag (deprecated). -/
structure StivaleMtrrHeaderTag where
  identifier : Nat
  next : Nat

def StivaleMtrrHeaderTag.new : StivaleMtrrHeaderTag :=
  ⟨0x4c7bb07731282e00, 0⟩

/-- v2 header 5-level-paging request tag. -/
structure Stivale5LevelPagingHeaderTag where
  identifier : Nat
  next : Nat

def Stivale5LevelPagingHeaderTag.new : Stivale5LevelPagingHeaderTag :=
  ⟨0x932f477032007e8f, 0⟩

/-- v2 header unmap-null-page request tag. -/
structure StivaleUnmapNullHeaderTag where
  identifier : Nat
  next : Nat

def StivaleUnmapNullHeaderTag.new : StivaleUnmapNullHeaderTag :=
  ⟨0x92919432b16fe7e7, 0⟩

/-- v2 header any-video preference tag. -/
structure StivaleAnyVideoTag where
  identifier : Nat
  next : Nat
  preference : Nat

def StivaleAnyVideoTag.new : StivaleAnyVideoTag :=
  ⟨0xc75c9fa92a44c4db, 0, 0⟩

/-- v2 `StivaleHeader` (src/v2/header.rs): entry-point override (the union
is stored as its raw 64-bit image, zero meaning none), stack pointer, flags
and the head of the feature-request tag chain. -/
structure StivaleHeader where
  entry_point : Nat
  stack : Nat
  flags : Nat
  tags : Nat

/-- Constructor `StivaleHeader::new()`: zeroed entry point and flags, null stack and
tags. -/
def StivaleHeader.new : StivaleHeader := ⟨0, 0, 0, 0⟩

/-- Source setter `pub const fn stack(mut self, stack) -> Self` (named
`set_stack` here because the field projection takes the source name). -/
def StivaleHeader.set_stack (s : StivaleHeader) (stack : Nat) :
    StivaleHeader := { s with stack := stack }

/-- Source setter `pub const fn flags(mut self, flags) -> Self`. -/
def StivaleHeader.set_flags (s : StivaleHeader) (flags : Nat) :
    StivaleHeader := { s with flags := flags }

/-- Source setter `pub const fn entry_point(mut self, func) -> Self`. -/
def StivaleHeader.set_entry_point (s : StivaleHeader) (func : Nat) :
    StivaleHeader := { s with entry_point := func }

/-- Source setter `pub const fn tags(mut self, tags) -> Self`. -/
def StivaleHeader.set_tags (s : StivaleHeader) (tags : Nat) :
    StivaleHeader := { s with tags := tags }

/-- Source observer `pub fn get_stack(&self) -> *const u8`. -/
def StivaleHeader.get_stack (s : StivaleHeader) : Nat := s.stack

/-- Source observer `pub fn get_flags(&self) -> u64`. -/
def StivaleHeader.get_flags (s : StivaleHeader) : Nat := s.flags

/-- Legacy framebuffer tag (src/framebuffer.rs `FramebufferTag`). -/
structure FramebufferTag where
  _identifier : Nat
  _next : Nat
  address : Nat
  width : Nat
  height : Nat
  pitch : Nat
  bpp : Nat

/-- Legacy `FramebufferTag::size`: `pitch as usize * height as usize *
(bpp as usize / 8)`, in 64-bit usize arithmetic. -/
def FramebufferTag.size (t : FramebufferTag) : Nat :=
  (t.pitch * t.height * (t.bpp / 8)) % 2 ^ 64

/-- Legacy `FramebufferTag::start_address`. -/
def FramebufferTag.start_address (t : FramebufferTag) : Nat := t.address

/-- Legacy `FramebufferTag::end_address`: `address as usize + size()`, wrapping in
64-bit usize arithmetic. -/
def FramebufferTag.end_address (t : FramebufferTag) : Nat :=
  (t.address + t.size) % 2 ^ 64

/-- v2 framebuffer tag (src/v2/tag.rs `StivaleFramebufferTag`). -/
structure StivaleFramebufferTag where
  header : StivaleTagHeader
  framebuffer_addr : Nat
  framebuffer_width : Nat
  framebuffer_height : Nat
  framebuffer_pitch : Nat
  framebuffer_bpp : Nat
  memory_model : Nat
  red_mask_size : Nat
  red_mask_shift : Nat
  green_mask_size : Nat
  green_mask_shift : Nat
  blue_mask_size : Nat
  blue_mask_shift : Nat
  _padding : Nat

/-- v2 `StivaleFramebufferTag::size`. -/
def StivaleFramebufferTag.size (t : StivaleFramebufferTag) : Nat :=
  (t.framebuffer_pitch * t.framebuffer_height * (t.framebuffer_bpp / 8)) %
    2 ^ 64

/-- v2 module record (src/v2/tag.rs `StivaleModule`); the source field
`end` is a Lean keyword and is embedded as `end_`. -/
structure StivaleModule where
  start : Nat
  end_ : Nat
  string : List Nat

/-- v2 `StivaleModule::size`: `end - start` in wrapping u64 arithmetic. -/
def StivaleModule.size (m : StivaleModule) : Nat :=
  (m.end_ + 2 ^ 64 - m.start) % 2 ^ 64

/-- v2 memory-map entry type (src/v2/tag.rs `StivaleMemoryMapEntryType`). -/
inductive StivaleMemoryMapEntryType where
  | Usable
  | Reserved
  | AcpiReclaimable
  | AcpiNvs
  | BadMemory
  | BootloaderReclaimable
  | Kernel
  | Framebuffer
deriving DecidableEq

/-- v2 memory-map entry (src/v2/tag.rs `StivaleMemoryMapEntry`). -/
structure StivaleMemoryMapEntry where
  base : Nat
  length : Nat
  entry_type : StivaleMemoryMapEntryType
  _padding : Nat
deriving DecidableEq

/-- v2 `StivaleMemoryMapEntry::end_address`: `base + length` (u64). -/
def StivaleMemoryMapEntry.end_address (e : StivaleMemoryMapEntry) : Nat :=
  (e.base + e.length) % 2 ^ 64

/-- v2 memory-map tag (src/v2/tag.rs `StivaleMemoryMapTag`): authoritative
count plus the trailing array, modelled as the unbounded memory following
the tag out of which `as_slice` takes the first `entries_len` records. -/
structure StivaleMemoryMapTag where
  header : StivaleTagHeader
  entries_len : Nat
  entry_array : Nat → StivaleMemoryMapEntry

/-- v2 `StivaleMemoryMapTag::as_slice`: the first `entries_len` entries. -/
def StivaleMemoryMapTag.as_slice (t : StivaleMemoryMapTag) :
    List StivaleMemoryMapEntry :=
  (List.range t.entries_len).map t.entry_array

/-- v2 memory-map sequence adapter (src/v2/tag.rs `StivaleMemoryMapIter`):
a reference to the owning tag plus the cursor of the entry about to be
yielded. -/
structure StivaleMemoryMapIter where
  sref : StivaleMemoryMapTag
  current : Nat

/-- v2 `StivaleMemoryMapTag::iter`: adapter with a zero cursor. -/
def StivaleMemoryMapTag.iter (t : StivaleMemoryMapTag) :
    StivaleMemoryMapIter := ⟨t, 0⟩

/-- v2 `StivaleMemoryMapIter::next` as a state transformer: the yielded
element (if any) together with the successor iterator state. -/
def StivaleMemoryMapIter.next (it : StivaleMemoryMapIter) :
    Option StivaleMemoryMapEntry × StivaleMemoryMapIter :=
  if h : it.current < it.sref.entries_len then
    (some (it.sref.as_slice.get ⟨it.current, by
      simpa [StivaleMemoryMapTag.as_slice] using h⟩),
      ⟨it.sref, it.current + 1⟩)
  else (none, it)

/-- Rust `derive(Clone)` on the adapter: a field-wise copy. -/
def StivaleMemoryMapIter.clone (it : StivaleMemoryMapIter) :
    StivaleMemoryMapIter := ⟨it.sref, it.current⟩

/-- Advance an adapter, discarding the yielded element. -/
def StivaleMemoryMapIter.advance (it : StivaleMemoryMapIter) :
    StivaleMemoryMapIter := it.next.2

/-- Joint state of an original adapter and its clone in which only the
clone is stepped, mirroring a caller that clones an iterator and advances
the clone. -/
def advanceClone (p : StivaleMemoryMapIter × StivaleMemoryMapIter) :
    StivaleMemoryMapIter × StivaleMemoryMapIter := (p.1, p.2.advance)

/-- PMR permission flag constants (src/v2/tag.rs
`StivalePmrPermissionFlags`). -/
def StivalePmrPermissionFlags.EXECUTABLE : Nat := 1 <<< 0

def StivalePmrPermissionFlags.WRITABLE : Nat := 1 <<< 1

def StivalePmrPermissionFlags.READABLE : Nat := 1 <<< 2

/-- The union of all defined PMR permission bits (the bitflags mask). -/
def StivalePmrPermissionFlags.allBits : Nat :=
  StivalePmrPermissionFlags.EXECUTABLE |||
    StivalePmrPermissionFlags.WRITABLE |||
    StivalePmrPermissionFlags.READABLE

/-- bitflags `from_bits_truncate`: keep the defined bits, silently drop
every other bit; never fails. -/
def StivalePmrPermissionFlags.from_bits_truncate (bits : Nat) : Nat :=
  bits &&& StivalePmrPermissionFlags.allBits

/-- Protected memory range record (src/v2/tag.rs `StivalePmr`). -/
structure StivalePmr where
  base : Nat
  size : Nat
  permissions : Nat

/-- Accessor `StivalePmr::permissions()` (named `permissions_flags` here because the
field projection takes the source name): truncating decode of the raw
permissions word. -/
def StivalePmr.permissions_flags (p : StivalePmr) : Nat :=
  StivalePmrPermissionFlags.from_bits_truncate p.permissions

/-- Example memory-map entries of the specification example. -/
def exEntry0 : StivaleMemoryMapEntry := ⟨0, 0x1000, .Usable, 0⟩

def exEntry1 : StivaleMemoryMapEntry := ⟨0x1000, 0x1000, .Reserved, 0⟩

/-- Example two-entry v2 memory-map tag. -/
def exMemMapTag : StivaleMemoryMapTag :=
  ⟨⟨0x2187f79e8612de07, 0⟩, 2, fun i => if i = 0 then exEntry0 else exEntry1⟩

/-- Example memory holding only a framebuffer tag at address 8. -/
def exFbMem : Mem := fun addr =>
  if addr = 8 then ⟨0x506461d2950408fa, 0⟩ else ⟨0, 0⟩

end Stivale

namespace Stivale.Legacy

/-- Legacy memory-map entry type (src/memory.rs `MemoryMapEntryType`). -/
inductive MemoryMapEntryType where
  | Usable
  | Reserved
  | AcpiReclaimable
  | AcpiNvs
  | BadMemory
  | BootloaderReclaimable
  | Kernel
deriving DecidableEq

/-- Legacy memory-map entry (src/memory.rs `MemoryMapEntry`). -/
structure MemoryMapEntry where
  base : Nat
  length : Nat
  entry_type : MemoryMapEntryType
  _unused : Nat
deriving DecidableEq

/-- Legacy `MemoryMapEntry::start_address`. -/
def MemoryMapEntry.start_address (e : MemoryMapEntry) : Nat := e.base

/-- Legacy `MemoryMapEntry::end_address`: `base + length` (u64). -/
def MemoryMapEntry.end_address (e : MemoryMapEntry) : Nat :=
  (e.base + e.length) % 2 ^ 64

/-- Legacy `MemoryMapEntry::size`. -/
def MemoryMapEntry.size (e : MemoryMapEntry) : Nat := e.length

/-- Legacy memory-map tag (src/memory.rs `MemoryMapTag`). -/
structure MemoryMapTag where
  _identifier : Nat
  _next : Nat
  entries : Nat
  entry_array : Nat → MemoryMapEntry

/-- Legacy `MemoryMapTag::array`: the first `entries` records. -/
def MemoryMapTag.array (t : MemoryMapTag) : List MemoryMapEntry :=
  (List.range t.entries).map t.entry_array

/-- Legacy memory-map sequence adapter (src/memory.rs `MemoryMapIter`). -/
structure MemoryMapIter where
  tag : MemoryMapTag
  current : Nat

/-- Legacy `MemoryMapTag::iter`. -/
def MemoryMapTag.iter (t : MemoryMapTag) : MemoryMapIter := ⟨t, 0⟩

/-- Legacy `MemoryMapIter::next` as a state transformer. -/
def MemoryMapIter.next (it : MemoryMapIter) :
    Option MemoryMapEntry × MemoryMapIter :=
  if h : it.current < it.tag.entries then
    (some (it.tag.array.get ⟨it.current, by
      simpa [MemoryMapTag.array] using h⟩),
      ⟨it.tag, it.current + 1⟩)
  else (none, it)

/-- Rust `derive(Clone)` on the legacy adapter: a field-wise copy. -/
def MemoryMapIter.clone (it : MemoryMapIter) : MemoryMapIter :=
  ⟨it.tag, it.current⟩

/-- Advance the legacy adapter, discarding the yielded element. -/
def MemoryMapIter.advance (it : MemoryMapIter) : MemoryMapIter := it.next.2

/-- Joint original/clone state in which only the clone is stepped. -/
def advanceClone (p : MemoryMapIter × MemoryMapIter) :
    MemoryMapIter × MemoryMapIter := (p.1, p.2.advance)

/-- Legacy module record (src/module.rs `Module`). -/
structure Module where
  start : Nat
  end_ : Nat
  string : List Nat
deriving DecidableEq

/-- Legacy module tag (src/module.rs `ModuleTag`). -/
structure ModuleTag where
  _identifier : Nat
  _next : Nat
  module_count : Nat
  module_array : Nat → Module

/-- Legacy `ModuleTag::array`: the first `module_count` records. -/
def ModuleTag.array (t : ModuleTag) : List Module :=
  (List.range t.module_count).map t.module_array

/-- Legacy module sequence adapter (src/module.rs `ModuleIter`). -/
structure ModuleIter where
  tag : ModuleTag
  current : Nat

/-- Legacy `ModuleTag::iter`. -/
def ModuleTag.iter (t : ModuleTag) : ModuleIter := ⟨t, 0⟩

/-- Legacy `ModuleIter::next` as a state transformer. -/
def ModuleIter.next (it : ModuleIter) : Option Module × ModuleIter :=
  if h : it.current < it.tag.module_count then
    (some (it.tag.array.get ⟨it.current, by
      simpa [ModuleTag.array] using h⟩),
      ⟨it.tag, it.current + 1⟩)
  else (none, it)

/-- Example legacy memory-map tag with a single usable entry. -/
def exLegacyMapTag : MemoryMapTag :=
  ⟨0x2187f79e8612de07, 0, 1, fun _ => ⟨0, 0x1000, .Usable, 0⟩⟩

/-- Example legacy module tag with a single module. -/
def exModuleTag : ModuleTag :=
  ⟨0x4b6fe466aade04ce, 0, 1, fun _ => ⟨0x1000, 0x3000, List.replicate 128 0⟩⟩

end Stivale.Legacy

namespace Stivale

lemma getTagLoop_null (mem : Mem) (ident : Nat) (fuel : Nat) :
    getTagLoop mem ident fuel 0 = none := by
  cases fuel <;> simp [getTagLoop]

lemma getTagExamined_null (mem : Mem) (ident : Nat) (fuel : Nat) :
    getTagExamined mem ident fuel 0 = 0 := by
  cases fuel <;> simp [getTagExamined]

lemma getTag_found (mem : Mem) (ident : Nat) :
    ∀ {start : Nat} {addrs : List Nat}, IsChain mem start addrs →
    ∀ {pre : List Nat} {a : Nat} {post : List Nat}, addrs = pre ++ a :: post →
    (∀ b ∈ pre, (mem b).identifier ≠ ident) →
    (mem a).identifier = ident →
    ∀ {fuel : Nat}, addrs.length ≤ fuel →
    getTagLoop mem ident fuel start = some a ∧
      getTagExamined mem ident fuel start = pre.length + 1 := by
  intro start addrs hc
  induction hc with
  | nil =>
    intro pre a post heq _ _ _ _
    exact absurd heq (by simp)
  | @cons a0 rest ha hrest ih =>
    intro pre a post heq hpre hid fuel hfuel
    cases pre with
    | nil =>
      simp only [List.nil_append, List.cons.injEq] at heq
      obtain ⟨rfl, rfl⟩ := heq
      cases fuel with
      | zero => simp at hfuel
      | succ f =>
        constructor
        · simp [getTagLoop, ha, hid]
        · simp [getTagExamined, ha, hid]
    | cons b pre =>
      simp only [List.cons_append, List.cons.injEq] at heq
      obtain ⟨rfl, heq⟩ := heq
      have hb : (mem a0).identifier ≠ ident := hpre a0 (by simp)
      cases fuel with
      | zero => simp at hfuel
      | succ f =>
        have hf : rest.length ≤ f := by
          simp only [List.length_cons] at hfuel; omega
        have hpre2 : ∀ b ∈ pre, (mem b).identifier ≠ ident := by
          intro b hbmem; exact hpre b (by simp [hbmem])
        obtain ⟨h1, h2⟩ := ih heq hpre2 hid hf
        constructor
        · simpa [getTagLoop, ha, hb] using h1
        · simp [getTagExamined, ha, hb, h2]

lemma getTag_absent (mem : Mem) (ident : Nat) :
    ∀ {start : Nat} {addrs : List Nat}, IsChain mem start addrs →
    (∀ b ∈ addrs, (mem b).identifier ≠ ident) →
    ∀ {fuel : Nat}, addrs.length ≤ fuel →
    getTagLoop mem ident fuel start = none ∧
      getTagExamined mem ident fuel start = addrs.length := by
  intro start addrs hc
  induction hc with
  | nil =>
    intro _ fuel _
    exact ⟨getTagLoop_null mem ident fuel, getTagExamined_null mem ident fuel⟩
  | @cons a0 rest ha hrest ih =>
    intro habs fuel hfuel
    have hb : (mem a0).identifier ≠ ident := habs a0 (by simp)
    cases fuel with
    | zero => simp at hfuel
    | succ f =>
      have hf : rest.length ≤ f := by
        simp only [List.length_cons] at hfuel; omega
      have habs2 : ∀ b ∈ rest, (mem b).identifier ≠ ident := by
        intro b hbmem; exact habs b (by simp [hbmem])
      obtain ⟨h1, h2⟩ := ih habs2 hf
      constructor
      · simpa [getTagLoop, ha, hb] using h1
      · simp [getTagExamined, ha, hb, h2]

/-- C1: on a finite null-terminated tag chain, lookup of an identifier whose
first occurrence is at position k (the record preceded by the k non-matching
records `pre`) returns the address of that record and examines exactly k + 1
records; lookup of an identifier absent from the chain examines all n records
and returns none. -/
theorem get_tag_chain_lookup (mem : Mem) (ident start : Nat) (addrs : List Nat)
    (hchain : IsChain mem start addrs) (fuel : Nat)
    (hfuel : addrs.length ≤ fuel) :
    (∀ pre a post, addrs = pre ++ a :: post →
        (∀ b ∈ pre, (mem b).identifier ≠ ident) →
        (mem a).identifier = ident →
        getTagLoop mem ident fuel start = some a ∧
          getTagExamined mem ident fuel start = pre.length + 1) ∧
    ((∀ b ∈ addrs, (mem b).identifier ≠ ident) →
        getTagLoop mem ident fuel start = none ∧
          getTagExamined mem ident fuel start = addrs.length) := by
  constructor
  · intro pre a post heq hpre hid
    exact getTag_found mem ident hchain heq hpre hid hfuel
  · intro habs
    exact getTag_absent mem ident hchain habs hfuel

/-- C1 witness: on the concrete two-record chain, looking up identifier 200
(at position 1) returns address 32 after examining 2 records, and looking up
the absent identifier 300 examines both records and returns none. -/
theorem get_tag_chain_lookup_witness :
    (getTagLoop exChainMem 200 2 16 = some 32 ∧
      getTagExamined exChainMem 200 2 16 = 2) ∧
    (getTagLoop exChainMem 300 2 16 = none ∧
      getTagExamined exChainMem 300 2 16 = 2) := by
  have hchain : IsChain exChainMem 16 [16, 32] :=
    IsChain.cons (by decide)
      (IsChain.cons (by decide) IsChain.nil)
  constructor
  · have h := (get_tag_chain_lookup exChainMem 200 16 [16, 32] hchain 2
      (by decide)).1 [16] 32 [] rfl (by decide) (by decide)
    simpa using h
  · have h := (get_tag_chain_lookup exChainMem 300 16 [16, 32] hchain 2
      (by decide)).2 (by decide)
    simpa using h

end Stivale

namespace Stivale

lemma strScan_eq_aux :
    ∀ (n : Nat) (data : List Nat) (i : Nat), data.length - i ≤ n →
      strScan data i = i + ((data.drop i).takeWhile (fun b => b != 0)).length := by
  intro n
  induction n with
  | zero =>
    intro data i h
    have hge : data.length ≤ i := by omega
    have hnlt : ¬ i < data.length := by omega
    rw [strScan]
    simp [hnlt, List.drop_eq_nil_of_le hge]
  | succ n ih =>
    intro data i h
    rw [strScan]
    by_cases hlt : i < data.length
    · by_cases hz : data.get ⟨i, hlt⟩ = 0
      · have hdrop := List.drop_eq_getElem_cons hlt
        have hb0 : data[i] = 0 := by simpa [List.get_eq_getElem] using hz
        have hcond : (data[i] != 0) = false := by simp [hb0]
        simp only [hlt, dite_true, hz, ne_eq, not_true_eq_false, ite_false]
        rw [hdrop, List.takeWhile_cons, hcond]
        simp
      · have hrec := ih data (i + 1) (by omega)
        have hdrop := List.drop_eq_getElem_cons hlt
        have hb0 : data[i] ≠ 0 := by simpa [List.get_eq_getElem] using hz
        have hcond : (data[i] != 0) = true := by simpa using hb0
        simp only [hlt, dite_true, hz, ne_eq, not_false_eq_true, ite_true]
        rw [hrec, hdrop, List.takeWhile_cons, hcond]
        simp only [if_true, List.length_cons]
        omega
    · have hge : data.length ≤ i := by omega
      simp [hlt, List.drop_eq_nil_of_le hge]

lemma strScan_zero (data : List Nat) :
    strScan data 0 = (data.takeWhile (fun b => b != 0)).length := by
  simpa using strScan_eq_aux data.length data 0 (by omega)

lemma take_takeWhile (p : Nat → Bool) (l : List Nat) :
    l.take ((l.takeWhile p).length) = l.takeWhile p := by
  induction l with
  | nil => simp
  | cons x xs ih =>
    by_cases hx : p x <;> simp [List.takeWhile_cons, hx, ih]

lemma takeWhile_append_all {p : Nat → Bool} {l1 : List Nat} (l2 : List Nat)
    (h : ∀ b ∈ l1, p b = true) :
    (l1 ++ l2).takeWhile p = l1 ++ l2.takeWhile p := by
  induction l1 with
  | nil => simp
  | cons x xs ih =>
    have hx : p x = true := h x (by simp)
    have hxs : ∀ b ∈ xs, p b = true := fun b hb => h b (by simp [hb])
    simp [List.takeWhile_cons, hx, ih hxs]

lemma takeWhile_all_eq_self {p : Nat → Bool} {l : List Nat}
    (h : ∀ b ∈ l, p b = true) : l.takeWhile p = l := by
  induction l with
  | nil => simp
  | cons x xs ih =>
    have hx : p x = true := h x (by simp)
    have hxs : ∀ b ∈ xs, p b = true := fun b hb => h b (by simp [hb])
    simp [List.takeWhile_cons, hx, ih hxs]

lemma takeWhile_replicate_zero (k : Nat) :
    (List.replicate k 0).takeWhile (fun b : Nat => b != 0) = [] := by
  cases k <;> simp [List.replicate_succ, List.takeWhile_cons]

lemma string_from_slice_spec (data : List Nat) :
    string_from_slice data = data.takeWhile (fun b => b != 0) := by
  unfold string_from_slice
  rw [strScan_zero, take_takeWhile]

lemma string_from_slice_padded (pre : List Nat) (k : Nat) (h0 : 0 ∉ pre) :
    string_from_slice (pre ++ List.replicate k 0) = pre := by
  have hall : ∀ b ∈ pre, (b != 0) = true := by
    intro b hb
    have : b ≠ 0 := fun hb0 => h0 (hb0 ▸ hb)
    simpa using this
  rw [string_from_slice_spec, takeWhile_append_all _ hall,
    takeWhile_replicate_zero, List.append_nil]

/-- C8: on a buffer containing no NUL byte at all, the scan loop stops at
the buffer length (it never reads past the end), `string_from_slice`
returns the whole buffer, and `string_from_u8` returns the whole buffer
wrapped in some. -/
theorem string_decoder_unterminated (data : List Nat)
    (h : ∀ b ∈ data, b ≠ 0) :
    string_from_slice data = data ∧
    strScan data 0 = data.length ∧
    (data ≠ [] → string_from_u8 data = some data) := by
  have hall : ∀ b ∈ data, (b != 0) = true := by
    intro b hb; simpa using h b hb
  have htw : data.takeWhile (fun b => b != 0) = data :=
    takeWhile_all_eq_self hall
  refine ⟨?_, ?_, ?_⟩
  · rw [string_from_slice_spec, htw]
  · rw [strScan_zero, htw]
  · intro hne
    match data, hne with
    | d :: rest, _ =>
      have hd : d ≠ 0 := h d (by simp)
      have : (d :: rest).take (strScan (d :: rest) 0) = d :: rest := by
        have := string_from_slice_spec (d :: rest)
        rw [htw] at this
        simpa [string_from_slice] using this
      simp [string_from_u8, hd, this]

/-- C8 witness: the 3-byte buffer "abc" has no NUL; both decoders return it
whole and the scan stops at index 3. -/
theorem string_decoder_unterminated_witness :
    string_from_slice [97, 98, 99] = [97, 98, 99] ∧
    strScan [97, 98, 99] 0 = 3 ∧
    string_from_u8 [97, 98, 99] = some [97, 98, 99] := by
  have h := string_decoder_unterminated [97, 98, 99] (by decide)
  exact ⟨h.1, h.2.1, h.2.2 (by decide)⟩

/-- C2 counterexample: in the v2 module the accessors return plain strings,
and on the 64-byte all-NUL buffer `bootloader_brand` returns the empty
string, not an absent result. -/
theorem bootloader_brand_zero_cex :
    StivaleStruct.bootloader_brand ⟨zeroBuf64, zeroBuf64, 0⟩ = [] := by
  have : string_from_slice zeroBuf64 = [] := by
    simpa [zeroBuf64] using string_from_slice_padded [] 64 (by simp)
  simpa [StivaleStruct.bootloader_brand] using this

/-- C2 amended: decoding a 64-byte buffer holding `pre` followed by NUL
padding yields the string `pre` in both modules; when the first byte is NUL
the legacy accessors (src/lib.rs) return none, while the v2 accessors
(src/v2/mod.rs) return the empty string. -/
theorem bootloader_string_decode (pre : List Nat) (h0 : 0 ∉ pre)
    (hlen : pre.length ≤ 64) :
    StivaleStruct.bootloader_brand
        ⟨pre ++ List.replicate (64 - pre.length) 0, zeroBuf64, 0⟩ = pre ∧
    StivaleStruct.bootloader_version
        ⟨zeroBuf64, pre ++ List.replicate (64 - pre.length) 0, 0⟩ = pre ∧
    Legacy.StivaleStructure.bootloader_brand
        ⟨pre ++ List.replicate (64 - pre.length) 0, zeroBuf64, 0⟩ =
      (if pre = [] then none else some pre) ∧
    Legacy.StivaleStructure.bootloader_version
        ⟨zeroBuf64, pre ++ List.replicate (64 - pre.length) 0, 0⟩ =
      (if pre = [] then none else some pre) := by
  have hs := string_from_slice_padded pre (64 - pre.length) h0
  have hu : string_from_u8 (pre ++ List.replicate (64 - pre.length) 0) =
      (if pre = [] then none else some pre) := by
    cases pre with
    | nil =>
      simp only [List.nil_append, if_true]
      cases h : (64 - List.length ([] : List Nat)) with
      | zero => simp at h
      | succ k => simp [h, List.replicate_succ, string_from_u8]
    | cons p ps =>
      have hp : p ≠ 0 := fun hp0 => h0 (by simp [hp0])
      have hs' : string_from_slice
          (p :: (ps ++ List.replicate (64 - (p :: ps).length) 0)) =
          p :: ps := hs
      have heq : string_from_u8
          (p :: (ps ++ List.replicate (64 - (p :: ps).length) 0)) =
          if p = 0 then none
          else some (string_from_slice
            (p :: (ps ++ List.replicate (64 - (p :: ps).length) 0))) := by
        simp [string_from_u8, string_from_slice]
      rw [if_neg hp, hs'] at heq
      simpa using heq
  exact ⟨by simpa [StivaleStruct.bootloader_brand] using hs,
    by simpa [StivaleStruct.bootloader_version] using hs,
    by simpa [Legacy.StivaleStructure.bootloader_brand] using hu,
    by simpa [Legacy.StivaleStructure.bootloader_version] using hu⟩

/-- C2 witness: the buffer "abc" followed by 61 NUL bytes decodes to "abc"
in both modules. -/
theorem bootloader_string_decode_witness :
    StivaleStruct.bootloader_brand
        ⟨[97, 98, 99] ++ List.replicate 61 0, zeroBuf64, 0⟩ = [97, 98, 99] ∧
    Legacy.StivaleStructure.bootloader_brand
        ⟨[97, 98, 99] ++ List.replicate 61 0, zeroBuf64, 0⟩ =
      some [97, 98, 99] := by
  have h := bootloader_string_decode [97, 98, 99] (by decide) (by decide)
  refine ⟨by simpa using h.1, ?_⟩
  have h3 := h.2.2.1
  simpa using h3

end Stivale

namespace Stivale

lemma getTagLoop_some_id (mem : Mem) (ident : Nat) :
    ∀ (fuel ptr a : Nat), getTagLoop mem ident fuel ptr = some a →
      (mem a).identifier = ident := by
  intro fuel
  induction fuel with
  | zero => intro ptr a h; simp [getTagLoop] at h
  | succ f ih =>
    intro ptr a h
    by_cases h0 : ptr = 0
    · simp [getTagLoop, h0] at h
    · by_cases hm : (mem ptr).identifier = ident
      · have hpa : ptr = a := by simpa [getTagLoop, h0, hm] using h
        rw [← hpa]; exact hm
      · have h2 : getTagLoop mem ident f (mem ptr).next = some a := by
          simpa [getTagLoop, h0, hm] using h
        exact ih _ _ h2

/-- C3: every typed accessor of the v2 boot-information view looks up
exactly the protocol-fixed identifier listed in the specification (any
address it returns holds a record bearing that identifier), and every
header feature-request constructor stores exactly its listed identifier. -/
theorem tag_identifier_constants :
    (∀ (s : StivaleStruct) (mem : Mem) (fuel a : Nat),
      (s.framebuffer mem fuel = some a →
        (mem a).identifier = 0x506461d2950408fa) ∧
      (s.terminal mem fuel = some a →
        (mem a).identifier = 0xc2b3f4c3233b0974) ∧
      (s.memory_map mem fuel = some a →
        (mem a).identifier = 0x2187f79e8612de07) ∧
      (s.rsdp mem fuel = some a →
        (mem a).identifier = 0x9e1786930a375e78) ∧
      (s.epoch mem fuel = some a →
        (mem a).identifier = 0x566a7bed888e1407) ∧
      (s.frimware mem fuel = some a →
        (mem a).identifier = 0x359d837855e3858c) ∧
      (s.modules mem fuel = some a →
        (mem a).identifier = 0x4b6fe466aade04ce) ∧
      (s.efi_system_table mem fuel = some a →
        (mem a).identifier = 0x4bc5ec15845b558e) ∧
      (s.kernel_file mem fuel = some a →
        (mem a).identifier = 0xe599d90c2975584a) ∧
      (s.kernel_slide mem fuel = some a →
        (mem a).identifier = 0xee80847d01506c57) ∧
      (s.smp mem fuel = some a →
        (mem a).identifier = 0x34d1d96339647025) ∧
      (s.command_line mem fuel = some a →
        (mem a).identifier = 0xe5e76a1b4597a781) ∧
      (s.edid_info mem fuel = some a →
        (mem a).identifier = 0x968609d7af96b845) ∧
      (s.smbios mem fuel = some a →
        (mem a).identifier = 0x274bd246c62bf7d1) ∧
      (s.pxe_info mem fuel = some a →
        (mem a).identifier = 0x29d1e96239247032) ∧
      (s.uart mem fuel = some a →
        (mem a).identifier = 0xb813f9b8dbc78797) ∧
      (s.dev_tree mem fuel = some a →
        (mem a).identifier = 0xabb29bd49a2833fa) ∧
      (s.vmap mem fuel = some a →
        (mem a).identifier = 0xb0ed257db18cb58f)) ∧
    StivaleFramebufferHeaderTag.new.identifier = 0x3ecc1bc43d0f7971 ∧
    StivaleTerminalHeaderTag.new.identifier = 0xa85d499b1823be72 ∧
    StivaleSmpHeaderTag.new.identifier = 0x1ab015085f3273df ∧
    Stivale5LevelPagingHeaderTag.new.identifier = 0x932f477032007e8f ∧
    StivaleUnmapNullHeaderTag.new.identifier = 0x92919432b16fe7e7 ∧
    StivaleAnyVideoTag.new.identifier = 0xc75c9fa92a44c4db ∧
    StivaleMtrrHeaderTag.new.identifier = 0x4c7bb07731282e00 := by
  refine ⟨?_, rfl, rfl, rfl, rfl, rfl, rfl, rfl⟩
  intro s mem fuel a
  refine ⟨?_, ?_, ?_, ?_, ?_, ?_, ?_, ?_, ?_, ?_, ?_, ?_, ?_, ?_, ?_, ?_,
    ?_, ?_⟩ <;>
    exact fun h => getTagLoop_some_id mem _ fuel s.tags a h

/-- C3 witness: on a memory holding a framebuffer tag at address 8, the
framebuffer accessor finds address 8, whose record carries the listed
framebuffer identifier. -/
theorem tag_identifier_constants_witness :
    StivaleStruct.framebuffer ⟨zeroBuf64, zeroBuf64, 8⟩ exFbMem 1 = some 8 ∧
    (exFbMem 8).identifier = 0x506461d2950408fa := by
  have hsome :
      StivaleStruct.framebuffer ⟨zeroBuf64, zeroBuf64, 8⟩ exFbMem 1 =
        some 8 := by decide
  exact ⟨hsome,
    (tag_identifier_constants.1 ⟨zeroBuf64, zeroBuf64, 8⟩ exFbMem 1 8).1
      hsome⟩

/-- C4: the chained setters of the v2 header descriptor are pure and
commute across independent fields: `new().stack(p).flags(f)` and
`new().flags(f).stack(p)` store the same stack p and flags f (and are the
same value), and each setter changes exactly the one field it names. -/
theorem header_builder_setters (p f e q : Nat) :
    ((StivaleHeader.new.set_stack p).set_flags f).get_stack = p ∧
    ((StivaleHeader.new.set_stack p).set_flags f).get_flags = f ∧
    ((StivaleHeader.new.set_flags f).set_stack p).get_stack = p ∧
    ((StivaleHeader.new.set_flags f).set_stack p).get_flags = f ∧
    (StivaleHeader.new.set_stack p).set_flags f =
      (StivaleHeader.new.set_flags f).set_stack p ∧
    (∀ s : StivaleHeader,
      (s.set_stack p).stack = p ∧
      (s.set_stack p).entry_point = s.entry_point ∧
      (s.set_stack p).flags = s.flags ∧
      (s.set_stack p).tags = s.tags ∧
      (s.set_flags f).flags = f ∧
      (s.set_flags f).entry_point = s.entry_point ∧
      (s.set_flags f).stack = s.stack ∧
      (s.set_flags f).tags = s.tags ∧
      (s.set_entry_point e).entry_point = e ∧
      (s.set_entry_point e).stack = s.stack ∧
      (s.set_entry_point e).flags = s.flags ∧
      (s.set_entry_point e).tags = s.tags ∧
      (s.set_tags q).tags = q ∧
      (s.set_tags q).entry_point = s.entry_point ∧
      (s.set_tags q).stack = s.stack ∧
      (s.set_tags q).flags = s.flags) :=
  ⟨rfl, rfl, rfl, rfl, rfl, fun _ =>
    ⟨rfl, rfl, rfl, rfl, rfl, rfl, rfl, rfl, rfl, rfl, rfl, rfl, rfl, rfl,
      rfl, rfl⟩⟩

/-- C5: framebuffer size equals `pitch * height * (bpp / 8)`, the
framebuffer end address equals start address plus size, the concrete
height 600 / pitch 3200 / bpp 32 framebuffer occupies exactly 7680000
bytes, and module size equals end minus start. -/
theorem framebuffer_module_derived (t : FramebufferTag)
    (t2 : StivaleFramebufferTag) (m : StivaleModule)
    (hp : t.pitch < 2 ^ 16) (hh : t.height < 2 ^ 16) (hb : t.bpp < 2 ^ 16)
    (haddr : t.address + t.size < 2 ^ 64)
    (h2p : t2.framebuffer_pitch < 2 ^ 16)
    (h2h : t2.framebuffer_height < 2 ^ 16)
    (h2b : t2.framebuffer_bpp < 2 ^ 16)
    (hm1 : m.start ≤ m.end_) (hm2 : m.end_ < 2 ^ 64) :
    t.size = t.pitch * t.height * (t.bpp / 8) ∧
    t.end_address = t.start_address + t.size ∧
    t2.size = t2.framebuffer_pitch * t2.framebuffer_height *
      (t2.framebuffer_bpp / 8) ∧
    (∀ (hdr : StivaleTagHeader) (addr w : Nat),
      (⟨hdr, addr, w, 600, 3200, 32, 0, 0, 0, 0, 0, 0, 0, 0⟩ :
        StivaleFramebufferTag).size = 7680000) ∧
    m.size = m.end_ - m.start := by
  have hlt : ∀ a b c : Nat, a < 2 ^ 16 → b < 2 ^ 16 → c < 2 ^ 16 →
      a * b * (c / 8) < 2 ^ 64 := by
    intro a b c ha hb hc
    have h1 : a ≤ 65535 := by omega
    have h2 : b ≤ 65535 := by omega
    have h3 : c / 8 ≤ 65535 := by
      have := Nat.div_le_self c 8
      omega
    calc a * b * (c / 8) ≤ 65535 * 65535 * 65535 :=
          Nat.mul_le_mul (Nat.mul_le_mul h1 h2) h3
      _ < 2 ^ 64 := by norm_num
  refine ⟨?_, ?_, ?_, ?_, ?_⟩
  · exact Nat.mod_eq_of_lt (hlt _ _ _ hp hh hb)
  · exact Nat.mod_eq_of_lt haddr
  · exact Nat.mod_eq_of_lt (hlt _ _ _ h2p h2h h2b)
  · intro hdr addr w
    show (3200 * 600 * (32 / 8)) % 2 ^ 64 = 7680000
    norm_num
  · unfold StivaleModule.size
    omega

/-- C5 witness: at the concrete 800x600 framebuffer with pitch 3200 and
bpp 32 the size is 7680000 bytes and the end address is start plus size;
the module spanning 0x1000..0x3000 has size 0x2000. -/
theorem framebuffer_module_derived_witness :
    (FramebufferTag.mk 0 0 0 800 600 3200 32).size = 7680000 ∧
    (FramebufferTag.mk 0 0 0 800 600 3200 32).end_address =
      (FramebufferTag.mk 0 0 0 800 600 3200 32).start_address +
        (FramebufferTag.mk 0 0 0 800 600 3200 32).size ∧
    (StivaleModule.mk 0x1000 0x3000 (List.replicate 128 0)).size =
      0x2000 := by
  have h := framebuffer_module_derived
    (FramebufferTag.mk 0 0 0 800 600 3200 32)
    (StivaleFramebufferTag.mk ⟨0, 0⟩ 0 800 600 3200 32 0 0 0 0 0 0 0 0)
    (StivaleModule.mk 0x1000 0x3000 (List.replicate 128 0))
    (by decide) (by decide) (by decide) (by decide)
    (by decide) (by decide) (by decide) (by decide) (by decide)
  refine ⟨?_, h.2.1, ?_⟩
  · rw [h.1]
    show 3200 * 600 * (32 / 8) = 7680000
    norm_num
  · rw [h.2.2.2.2]
    show (0x3000 : Nat) - 0x1000 = 0x2000
    norm_num

lemma as_slice_length (t : StivaleMemoryMapTag) :
    t.as_slice.length = t.entries_len := by
  simp [StivaleMemoryMapTag.as_slice]

lemma as_slice_get_eq (t : StivaleMemoryMapTag) (i : Nat)
    (h : i < t.as_slice.length) :
    t.as_slice[i] = t.entry_array i := by
  simp [StivaleMemoryMapTag.as_slice]

lemma array_length (t : Legacy.MemoryMapTag) :
    t.array.length = t.entries := by
  simp [Legacy.MemoryMapTag.array]

lemma array_get_eq (t : Legacy.MemoryMapTag) (i : Nat)
    (h : i < t.array.length) :
    t.array[i] = t.entry_array i := by
  simp [Legacy.MemoryMapTag.array]

/-- C6: the sequence adapter starts at cursor 0; a `next` at cursor
c < count yields element c of the backing array and advances the cursor to
c + 1; once the cursor has reached the count `next` yields none — in both
the v2 and the legacy memory-map module — and on the concrete two-entry
memory map the adapter yields exactly the two entries in order, with entry
0 having end address equal to the base of entry 1. -/
theorem memory_map_iter_spec :
    (∀ t : StivaleMemoryMapTag, t.iter.current = 0 ∧ t.iter.sref = t) ∧
    (∀ it : StivaleMemoryMapIter, it.current < it.sref.entries_len →
      it.next.1 = some (it.sref.entry_array it.current) ∧
      it.next.2.current = it.current + 1 ∧ it.next.2.sref = it.sref) ∧
    (∀ it : StivaleMemoryMapIter, it.sref.entries_len ≤ it.current →
      it.next.1 = none ∧ it.next.2 = it) ∧
    (∀ t : Legacy.MemoryMapTag, t.iter.current = 0 ∧ t.iter.tag = t) ∧
    (∀ it : Legacy.MemoryMapIter, it.current < it.tag.entries →
      it.next.1 = some (it.tag.entry_array it.current) ∧
      it.next.2.current = it.current + 1 ∧ it.next.2.tag = it.tag) ∧
    (∀ it : Legacy.MemoryMapIter, it.tag.entries ≤ it.current →
      it.next.1 = none ∧ it.next.2 = it) ∧
    (exMemMapTag.iter.next.1 = some exEntry0 ∧
      exMemMapTag.iter.next.2.next.1 = some exEntry1 ∧
      exMemMapTag.iter.next.2.next.2.next.1 = none ∧
      exEntry0.end_address = exEntry1.base) := by
  refine ⟨fun t => ⟨rfl, rfl⟩, ?_, ?_, fun t => ⟨rfl, rfl⟩, ?_, ?_,
    by decide, by decide, by decide, by decide⟩
  · intro it h
    refine ⟨?_, ?_, ?_⟩ <;>
      simp [StivaleMemoryMapIter.next, h, as_slice_get_eq, as_slice_length]
  · intro it h
    have hn : ¬ it.current < it.sref.entries_len := by omega
    exact ⟨by simp [StivaleMemoryMapIter.next, hn],
      by simp [StivaleMemoryMapIter.next, hn]⟩
  · intro it h
    refine ⟨?_, ?_, ?_⟩ <;>
      simp [Legacy.MemoryMapIter.next, h, array_get_eq, array_length]
  · intro it h
    have hn : ¬ it.current < it.tag.entries := by omega
    exact ⟨by simp [Legacy.MemoryMapIter.next, hn],
      by simp [Legacy.MemoryMapIter.next, hn]⟩

/-- C6 witness: the concrete adapters satisfy the step and stop clauses:
the fresh v2 adapter is in bounds and yields entry 0, the fresh legacy
adapter yields entry 0, and a v2 adapter whose cursor has reached the
count yields none. -/
theorem memory_map_iter_spec_witness :
    exMemMapTag.iter.current < exMemMapTag.iter.sref.entries_len ∧
    exMemMapTag.iter.next.1 =
      some (exMemMapTag.iter.sref.entry_array exMemMapTag.iter.current) ∧
    Legacy.exLegacyMapTag.iter.next.1 =
      some (Legacy.exLegacyMapTag.entry_array 0) ∧
    (StivaleMemoryMapIter.mk exMemMapTag 2).next.1 = none := by
  have h1 : exMemMapTag.iter.current < exMemMapTag.iter.sref.entries_len :=
    by decide
  have h2 := (memory_map_iter_spec.2.1 exMemMapTag.iter h1).1
  have h3 := (memory_map_iter_spec.2.2.2.2.1 Legacy.exLegacyMapTag.iter
    (by decide)).1
  have h4 := (memory_map_iter_spec.2.2.1
    (StivaleMemoryMapIter.mk exMemMapTag 2) (by decide)).1
  exact ⟨h1, h2, h3, h4⟩

lemma advanceClone_fst :
    ∀ (k : Nat) (p : StivaleMemoryMapIter × StivaleMemoryMapIter),
      (advanceClone^[k] p).1 = p.1 := by
  intro k
  induction k with
  | zero => intro p; rfl
  | succ n ih =>
    intro p
    rw [Function.iterate_succ_apply]
    exact ih (advanceClone p)

lemma advanceClone_fst_legacy :
    ∀ (k : Nat) (p : Legacy.MemoryMapIter × Legacy.MemoryMapIter),
      (Legacy.advanceClone^[k] p).1 = p.1 := by
  intro k
  induction k with
  | zero => intro p; rfl
  | succ n ih =>
    intro p
    rw [Function.iterate_succ_apply]
    exact ih (Legacy.advanceClone p)

/-- C7: cloning a sequence adapter copies the cursor; advancing the clone
any number of times leaves the original component of the joint state
unchanged, so the next element of the original is the same as if the clone had
never been advanced — for the v2 and the legacy memory-map adapters. -/
theorem iter_clone_independent :
    (∀ (it : StivaleMemoryMapIter) (k : Nat),
      it.clone = it ∧
      (advanceClone^[k] (it, it.clone)).1.next.1 = it.next.1) ∧
    (∀ (it : Legacy.MemoryMapIter) (k : Nat),
      it.clone = it ∧
      (Legacy.advanceClone^[k] (it, it.clone)).1.next.1 = it.next.1) := by
  constructor
  · intro it k
    refine ⟨rfl, ?_⟩
    rw [advanceClone_fst]
  · intro it k
    refine ⟨rfl, ?_⟩
    rw [advanceClone_fst_legacy]

/-- C9: the adapter cursor never exceeds the authoritative count (it is
incremented only while strictly below it), and the adapter is fused: once
`next` returns none every later `next` also returns none — for the v2
memory-map adapter and the legacy module adapter. -/
theorem iter_cursor_invariant_fused :
    (∀ it : StivaleMemoryMapIter, it.current ≤ it.sref.entries_len →
      it.next.2.current ≤ it.next.2.sref.entries_len) ∧
    (∀ it : StivaleMemoryMapIter, it.next.1 = none →
      it.next.2.next.1 = none) ∧
    (∀ it : Legacy.ModuleIter, it.current ≤ it.tag.module_count →
      it.next.2.current ≤ it.next.2.tag.module_count) ∧
    (∀ it : Legacy.ModuleIter, it.next.1 = none →
      it.next.2.next.1 = none) := by
  refine ⟨?_, ?_, ?_, ?_⟩
  · intro it h
    by_cases hlt : it.current < it.sref.entries_len
    · simp only [StivaleMemoryMapIter.next, hlt, dite_true]
      omega
    · simp only [StivaleMemoryMapIter.next, hlt, dite_false]
      exact h
  · intro it h
    by_cases hlt : it.current < it.sref.entries_len
    · exfalso; simp [StivaleMemoryMapIter.next, hlt] at h
    · simp [StivaleMemoryMapIter.next, hlt]
  · intro it h
    by_cases hlt : it.current < it.tag.module_count
    · simp only [Legacy.ModuleIter.next, hlt, dite_true]
      omega
    · simp only [Legacy.ModuleIter.next, hlt, dite_false]
      exact h
  · intro it h
    by_cases hlt : it.current < it.tag.module_count
    · exfalso; simp [Legacy.ModuleIter.next, hlt] at h
    · simp [Legacy.ModuleIter.next, hlt]

/-- C9 witness: concrete exhausted adapters keep the bound and stay
fused. -/
theorem iter_cursor_invariant_fused_witness :
    (StivaleMemoryMapIter.mk exMemMapTag 2).next.2.current ≤
      (StivaleMemoryMapIter.mk exMemMapTag 2).next.2.sref.entries_len ∧
    (StivaleMemoryMapIter.mk exMemMapTag 2).next.2.next.1 = none ∧
    (Legacy.ModuleIter.mk Legacy.exModuleTag 1).next.2.current ≤
      (Legacy.ModuleIter.mk Legacy.exModuleTag 1).next.2.tag.module_count ∧
    (Legacy.ModuleIter.mk Legacy.exModuleTag 1).next.2.next.1 = none := by
  exact ⟨iter_cursor_invariant_fused.1 _ (by decide),
    iter_cursor_invariant_fused.2.1 _ (by decide),
    iter_cursor_invariant_fused.2.2.1 _ (by decide),
    iter_cursor_invariant_fused.2.2.2 _ (by decide)⟩

/-- C10: the PMR permissions accessor truncates the raw 64-bit word to the
three defined flag bits: the result is the word masked with 0b111
(equivalently, the word modulo 8), discarding all unknown bits without
failing. -/
theorem pmr_permissions_truncate (p : StivalePmr) :
    p.permissions_flags = p.permissions &&& 0b111 ∧
    p.permissions_flags = p.permissions % 8 := by
  have hmask : StivalePmrPermissionFlags.allBits = 7 := by decide
  constructor
  · simp [StivalePmr.permissions_flags,
      StivalePmrPermissionFlags.from_bits_truncate, hmask]
  · have h := Nat.and_pow_two_sub_one_eq_mod p.permissions 3
    norm_num at h
    simp [StivalePmr.permissions_flags,
      StivalePmrPermissionFlags.from_bits_truncate, hmask, h]

end Stivale
